import Mathlib

/-!
Verification development for the Creator Insight Portal API backend
(`main.py`, `schemas.py`).  Strings manipulated by the token logic are
modelled as `List Char`; Python `int` is modelled as `ℤ`, Python `float`
arithmetic as exact `ℚ` arithmetic (every numeric value reached by the
handlers is exactly representable, so rounding of binary floats never
changes a result below); epoch timestamps are `ℤ` parameters.
-/

/-- Splitting a character list on the two-character separator `"::"`,
modelling Python `str.split("::")`: non-overlapping occurrences are
consumed scanning left to right. -/
def split2 : List Char → List (List Char)
  | [] => [[]]
  | [c] => [[c]]
  | c1 :: c2 :: rest =>
    if c1 = ':' ∧ c2 = ':' then [] :: split2 rest
    else
      match split2 (c2 :: rest) with
      | [] => [[c1]]
      | f :: fs => (c1 :: f) :: fs

/-- A field is clean for splitting when it contains no `"::"` occurrence and
does not end with a single `':'` (which would merge with a following
separator). -/
def okField : List Char → Bool
  | [] => true
  | [c] => decide (¬ c = ':')
  | c1 :: c2 :: rest => if c1 = ':' ∧ c2 = ':' then false else okField (c2 :: rest)

/-- The list contains no `"::"` occurrence (it may still end with `':'`). -/
def noSep : List Char → Bool
  | [] => true
  | [_] => true
  | c1 :: c2 :: rest => if c1 = ':' ∧ c2 = ':' then false else noSep (c2 :: rest)

/-- Decimal digit to its character, as produced by Python `str` on an int. -/
def digitChar (d : ℕ) : Char :=
  match d with
  | 0 => '0'
  | 1 => '1'
  | 2 => '2'
  | 3 => '3'
  | 4 => '4'
  | 5 => '5'
  | 6 => '6'
  | 7 => '7'
  | 8 => '8'
  | _ => '9'

/-- Fuel-driven most-significant-first decimal rendering of a natural
number; `fuel ≥ n` suffices since the argument is divided by 10 each step. -/
def natCharsAux : ℕ → ℕ → List Char
  | 0, _ => []
  | fuel + 1, n => if n = 0 then [] else natCharsAux fuel (n / 10) ++ [digitChar (n % 10)]

/-- Decimal rendering of a natural number, as Python `str`. -/
def natChars (n : ℕ) : List Char := if n = 0 then ['0'] else natCharsAux n n

/-- Decimal rendering of an integer, as Python `str`. -/
def intChars (z : ℤ) : List Char :=
  if z < 0 then '-' :: natChars z.natAbs else natChars z.natAbs

/-- Numeric value of a digit character. -/
def digitVal (c : Char) : ℕ := c.toNat - 48

/-- Parse an all-digit character list to a natural number, `none` when the
list is empty or holds a non-digit. -/
def parseNatDigits (cs : List Char) : Option ℕ :=
  if cs = [] then none
  else if cs.all Char.isDigit then
    some (cs.foldl (fun a c => 10 * a + digitVal c) 0)
  else none

/-- Model of Python `int(...)` applied to a string, on the sign-plus-digits
grammar: an optional leading `'-'` or `'+'` followed by digits yields the
value, anything else raises (here: `none`).  Python's extra leniency
(surrounding whitespace, `'_'` grouping) is not exercised by any token the
handlers build or any input the claims evaluate. -/
def parseInt (cs : List Char) : Option ℤ :=
  match cs with
  | [] => none
  | c :: rest =>
    if c = '-' then (parseNatDigits rest).map (fun n => -(n : ℤ))
    else if c = '+' then (parseNatDigits rest).map (fun n => (n : ℤ))
    else (parseNatDigits (c :: rest)).map (fun n => (n : ℤ))

/-- The static demo secret from `main.py`. -/
def FAKE_SECRET : List Char := "creator-insight-demo-secret".toList

/-- Response model of `POST /auth/login` (`TokenResponse` in `main.py`). -/
structure TokenResponse where
  access_token : List Char
  token_type : List Char := "bearer".toList
  expires_in : ℕ := 3600
deriving DecidableEq

/-- Embedding of `create_fake_token`: the token string
`f"token::{email}::{exp}::{FAKE_SECRET}"` with `exp` one hour past the
current epoch second `now`. -/
def create_fake_token (now : ℤ) (email : List Char) : List Char :=
  "token::".toList ++ email ++ "::".toList ++ intChars (now + 3600) ++
    "::".toList ++ FAKE_SECRET

/-- Embedding of the `login` handler: HTTP 400 when either field is empty
(Python falsy string), otherwise a `TokenResponse` carrying the fake token. -/
def login (now : ℤ) (email pw : List Char) : Except ℕ TokenResponse :=
  if email = [] ∨ pw = [] then Except.error 400
  else Except.ok { access_token := create_fake_token now email }

/-- Embedding of `get_current_user`: absent credentials give `none`; else the
token is split on `"::"`, and the handler requires exactly 4 parts, the
static secret, and an unexpired integer expiry; every failure (including the
`int(...)` exception, caught by the surrounding `try`) yields `none`. -/
def get_current_user (now : ℤ) (creds : Option (List Char)) : Option (List Char) :=
  match creds with
  | none => none
  | some token =>
    match split2 token with
    | [_, email, exp, secret] =>
      if secret ≠ FAKE_SECRET then none
      else
        match parseInt exp with
        | none => none
        | some e => if e < now then none else some email
    | _ => none

/-- Banker-style rounding of a rational to the nearest integer (Python's
`round` on floats rounds half to even); ties never occur at any value the
handlers produce, so the tie rule is inert. -/
def rhe (x : ℚ) : ℤ :=
  let f := ⌊x⌋
  let r := x - f
  if r < 1 / 2 then f
  else if 1 / 2 < r then f + 1
  else if f % 2 = 0 then f else f + 1

/-- Model of Python `round(x, 2)`. -/
def round2 (x : ℚ) : ℚ := ((rhe (x * 100) : ℤ) : ℚ) / 100

/-- The ordered achievement threshold table from `main.py`. -/
def achievementThresholds : List (String × ℤ) :=
  [("Bronze", 0), ("Silver", 2000), ("Gold", 5000), ("Platinum", 10000)]

/-- Embedding of the level computation of `get_creator_level`: the chain of
`if points >= t` re-assignments. -/
def levelFor (points : ℤ) : String :=
  let level := "Bronze"
  let level := if points ≥ 2000 then ("Silver") else level
  let level := if points ≥ 5000 then ("Gold") else level
  let level := if points ≥ 10000 then ("Platinum") else level
  level

/-- Embedding of `GET /achievements/level`: the handler hard-codes
`points = 1860`. -/
def get_creator_level : String := levelFor 1860

/-- Response model of `GET /achievements/progress`. -/
structure ProgressResponse where
  points : ℤ
  nextLevel : String
  progressPercent : ℚ
deriving DecidableEq

/-- Embedding of the progress computation of `get_progress_to_next_level`:
the first threshold strictly above `points` (defaulting to Silver/2000 when
the loop finds none), then `min(100, round(points / next_threshold * 100, 2))`
guarded by Python truthiness of `next_threshold`. -/
def progressResp (points : ℤ) : ProgressResponse :=
  let nxt := (achievementThresholds.find? (fun t => decide (points < t.2))).getD
    ("Silver", 2000)
  ⟨points, nxt.1,
    if nxt.2 ≠ 0 then min 100 (round2 ((points : ℚ) / (nxt.2 : ℚ) * 100)) else 100⟩

/-- Embedding of `GET /achievements/progress`: the handler hard-codes
`points = 1860`. -/
def get_progress_to_next_level : ProgressResponse := progressResp 1860

/-- Modelled from the spec's words, for comparison with `levelFor`: the
highest threshold in the table that is at most `p`, mapped to its level
name (`none` when no threshold qualifies). -/
def specLevel (p : ℤ) : Option String :=
  ((achievementThresholds.filter (fun t => decide (t.2 ≤ p))).getLast?).map Prod.fst

/-- Modelled from the spec's words: the first threshold strictly greater
than `p`. -/
def specNextThreshold (p : ℤ) : Option ℤ :=
  ([0, 2000, 5000, 10000] : List ℤ).find? (fun th => decide (p < th))

/-- Modelled from the spec's words, for comparison with `progressResp`:
100 when no threshold exceeds `p`, otherwise
`min(100, round(p / nextThreshold * 100, 2))`. -/
def specProgress (p : ℤ) : ℚ :=
  match specNextThreshold p with
  | none => 100
  | some nt => min 100 (round2 ((p : ℚ) / (nt : ℚ) * 100))

/-- Outcome of one underlying document-store call: the handle may be absent
(`db` is `None`), the query may raise, or a value comes back. -/
inductive DbOutcome (α : Type) where
  | unavailable : DbOutcome α
  | raised : DbOutcome α
  | ok : α → DbOutcome α
deriving DecidableEq

/-- A data-access fault: store unreachable or the query raised. -/
def storeFault {α : Type} (o : DbOutcome α) : Prop :=
  o = DbOutcome.unavailable ∨ o = DbOutcome.raised

/-- A stored course document as read by the handlers: `str(d.get("_id"))`
pre-rendered, and the optional `title` / `category` entries. -/
structure CourseDoc where
  idStr : String
  title : Option String
  category : Option String
deriving DecidableEq

/-- Response item of `GET /courses` (`CourseItem` in `main.py`). -/
structure CourseItem where
  id : String
  title : String
  category : String
deriving DecidableEq

/-- Conversion from a stored document applied inside `get_courses`, with the
`d.get(..., default)` fallbacks. -/
def courseItemOfDoc (d : CourseDoc) : CourseItem :=
  ⟨d.idStr, d.title.getD ("Untitled"), d.category.getD ("General")⟩

/-- The three fixed demo courses of `get_courses`. -/
def demoCourses : List CourseItem :=
  [⟨"c1", "Mastering Python", "Programming"⟩,
   ⟨"c2", "Data Visualization", "Analytics"⟩,
   ⟨"c3", "Teaching with AI", "Education"⟩]

/-- Embedding of `GET /courses`: live documents when the store call yields
any, otherwise (absent handle, raised query, or empty list — the `except`
also resets `items` to `[]`) the demo courses. -/
def get_courses (o : DbOutcome (List CourseDoc)) : List CourseItem :=
  let items :=
    match o with
    | DbOutcome.ok docs => docs.map courseItemOfDoc
    | _ => []
  if items = [] then demoCourses else items

/-- The fallback payload of `GET /courses/{id}`. -/
def fallbackCourse (cid : String) : CourseItem := ⟨cid, "Course", "General"⟩

/-- Response of `GET /courses/{id}`: either the raw stored document or the
fallback dictionary. -/
inductive CourseDetail where
  | stored : CourseDoc → CourseDetail
  | demo : CourseItem → CourseDetail
deriving DecidableEq

/-- Embedding of `GET /courses/{id}`: `find_one` result when present,
otherwise (absent handle, raised query, or no match) the fallback payload. -/
def get_course (cid : String) (o : DbOutcome (Option CourseDoc)) : CourseDetail :=
  let doc : Option CourseDoc :=
    match o with
    | DbOutcome.ok v => v
    | _ => none
  match doc with
  | some d => CourseDetail.stored d
  | none => CourseDetail.demo (fallbackCourse cid)

/-- Embedding of `_safe_count`: the count when the store call succeeds, `0`
when the handle is absent or the query raises. -/
def safe_count (o : DbOutcome ℕ) : ℕ :=
  match o with
  | DbOutcome.ok n => n
  | _ => 0

/-- Response model of `GET /dashboard/summary`. -/
structure SummaryResponse where
  totalCourses : ℕ
  totalEnrollments : ℕ
  activeLearners : ℕ
deriving DecidableEq

/-- Embedding of `dashboard_summary`: `_safe_count(...) or demo`, and
`max(int(total_enrollments * 0.6), 500)` in exact arithmetic.  The optional
authenticated user is accepted and ignored, as in the handler. -/
def dashboard_summary (user : Option (List Char)) (oc oe : DbOutcome ℕ) :
    SummaryResponse :=
  let tc := if safe_count oc = 0 then 8 else safe_count oc
  let te := if safe_count oe = 0 then 1240 else safe_count oe
  ⟨tc, te, max (Int.toNat ⌊(te : ℚ) * (3 / 5)⌋) 500⟩

/-- One review of the fixed list in `get_reviews`. -/
structure ReviewItem where
  learnerId : String
  rating : ℚ
  reviewText : String
  createdAt : String
deriving DecidableEq

/-- Response of `GET /courses/{id}/reviews`. -/
structure ReviewsResponse where
  rating : ℚ
  count : ℕ
  reviews : List ReviewItem
deriving DecidableEq

/-- Embedding of `get_reviews`: the fixed three-review list (timestamped
with today's date string) and `round(sum / len, 2)`. -/
def get_reviews (course_id : String) (today : String) : ReviewsResponse :=
  let reviews : List ReviewItem :=
    [⟨"u1", 4.5, "Great pacing and examples!", today⟩,
     ⟨"u2", 4.8, "Loved the hands-on approach.", today⟩,
     ⟨"u3", 4.2, "Clear explanations.", today⟩]
  let avg := round2 ((reviews.map ReviewItem.rating).sum / (reviews.length : ℚ))
  ⟨avg, reviews.length, reviews⟩

/-- Request model of `POST /achievements/update`. -/
structure UpdateAchievementRequest where
  creatorId : String
  pointsDelta : ℤ
deriving DecidableEq

/-- Response of `POST /achievements/update`. -/
structure UpdateResponse where
  status : String
  creatorId : String
  pointsAdded : ℤ
deriving DecidableEq

/-- Embedding of `update_achievements` with explicit state passing: the
handler body touches no store at all, so it is polymorphic in the state it
threads through unchanged, and only echoes the request. -/
def update_achievements {σ : Type} (st : σ) (body : UpdateAchievementRequest) :
    σ × UpdateResponse :=
  (st, ⟨"ok", body.creatorId, body.pointsDelta⟩)

theorem split2_ne_nil : ∀ xs : List Char, split2 xs ≠ []
  | [] => by simp [split2]
  | [c] => by simp [split2]
  | c1 :: c2 :: rest => by
    simp only [split2]
    split
    · simp
    · split
      · simp
      · simp

theorem split2_sep_head (ys : List Char) :
    split2 (':' :: ':' :: ys) = [] :: split2 ys := by
  simp [split2]

theorem split2_append_sep :
    ∀ xs ys : List Char, okField xs = true →
      split2 (xs ++ ':' :: ':' :: ys) = xs :: split2 ys
  | [], ys, _ => by simp [split2]
  | [c], ys, h => by
    have hc : ¬ c = ':' := by simpa [okField] using h
    show split2 (c :: ':' :: ':' :: ys) = [c] :: split2 ys
    simp only [split2]
    rw [if_neg (by simp [hc])]
    simp
  | c1 :: c2 :: rest, ys, h => by
    have h1 : ¬ (c1 = ':' ∧ c2 = ':') := by
      intro hh
      simp [okField, hh.1, hh.2] at h
    have h2 : okField (c2 :: rest) = true := by
      simpa [okField, if_neg h1] using h
    have ih := split2_append_sep (c2 :: rest) ys h2
    rw [List.cons_append] at ih
    show split2 (c1 :: (c2 :: rest ++ ':' :: ':' :: ys)) = _
    simp only [split2]
    rw [if_neg h1]
    simp only [List.append_eq]
    rw [ih]

theorem okField_of_no_colon :
    ∀ xs : List Char, (∀ c ∈ xs, ¬ c = ':') → okField xs = true
  | [], _ => rfl
  | [c], h => by simp [okField, h c (by simp)]
  | c1 :: c2 :: rest, h => by
    have ih := okField_of_no_colon (c2 :: rest) (fun c hc => h c (List.mem_cons_of_mem _ hc))
    have h1 : ¬ c1 = ':' := h c1 (by simp)
    simp [okField, h1, ih]

theorem okField_cons_colon (xs : List Char) (hne : xs ≠ [])
    (h : ∀ c ∈ xs, ¬ c = ':') : okField (':' :: xs) = true := by
  match xs, hne with
  | c :: rest, _ =>
    have hc : ¬ c = ':' := h c (by simp)
    have : okField (c :: rest) = true := okField_of_no_colon _ h
    simp [okField, hc, this]

theorem noSep_decomp :
    ∀ xs : List Char, noSep xs = true → okField xs = false →
      ∃ front : List Char, xs = front ++ [':'] ∧ okField front = true
  | [], _, h2 => by simp [okField] at h2
  | [c], _, h2 => by
    have hc : c = ':' := by
      by_contra hc
      simp [okField, hc] at h2
    exact ⟨[], by simp [hc], rfl⟩
  | c1 :: c2 :: rest, h1, h2 => by
    have hpair : ¬ (c1 = ':' ∧ c2 = ':') := by
      intro hh
      simp [noSep, hh.1, hh.2] at h1
    have h1' : noSep (c2 :: rest) = true := by simpa [noSep, if_neg hpair] using h1
    have h2' : okField (c2 :: rest) = false := by simpa [okField, if_neg hpair] using h2
    obtain ⟨front, hfr, hok⟩ := noSep_decomp (c2 :: rest) h1' h2'
    refine ⟨c1 :: front, by simp [hfr], ?_⟩
    match front, hfr, hok with
    | [], hfr, _ =>
      have hc2 : c2 = ':' := by
        have := hfr
        simp at this
        exact this.1
      have hc1 : ¬ c1 = ':' := fun hc1 => hpair ⟨hc1, hc2⟩
      simp [okField, hc1]
    | d :: front', hfr, hok =>
      have hd : d = c2 := by
        have := hfr
        simp at this
        exact this.1.symm
      subst hd
      simpa [okField, if_neg hpair] using hok

theorem digitChar_ne_colon (d : ℕ) : ¬ digitChar d = ':' := by
  unfold digitChar
  rcases d with _ | _ | _ | _ | _ | _ | _ | _ | _ | d <;> simp

theorem digitChar_isDigit (d : ℕ) : (digitChar d).isDigit = true := by
  unfold digitChar
  rcases d with _ | _ | _ | _ | _ | _ | _ | _ | _ | d <;> simp

theorem digitVal_digitChar (d : ℕ) (hd : d < 10) : digitVal (digitChar d) = d := by
  interval_cases d <;> rfl

theorem natCharsAux_no_colon :
    ∀ fuel n : ℕ, ∀ c ∈ natCharsAux fuel n, ¬ c = ':'
  | 0, _ => by simp [natCharsAux]
  | fuel + 1, n => by
    intro c hc
    by_cases hn : n = 0
    · simp [natCharsAux, hn] at hc
    · rw [natCharsAux, if_neg hn] at hc
      rcases List.mem_append.mp hc with h | h
      · exact natCharsAux_no_colon fuel (n / 10) c h
      · have : c = digitChar (n % 10) := by simpa using h
        rw [this]
        exact digitChar_ne_colon _

theorem natCharsAux_all_digit :
    ∀ fuel n : ℕ, ∀ c ∈ natCharsAux fuel n, c.isDigit = true
  | 0, _ => by simp [natCharsAux]
  | fuel + 1, n => by
    intro c hc
    by_cases hn : n = 0
    · simp [natCharsAux, hn] at hc
    · rw [natCharsAux, if_neg hn] at hc
      rcases List.mem_append.mp hc with h | h
      · exact natCharsAux_all_digit fuel (n / 10) c h
      · have : c = digitChar (n % 10) := by simpa using h
        rw [this]
        exact digitChar_isDigit _

theorem natChars_no_colon (n : ℕ) : ∀ c ∈ natChars n, ¬ c = ':' := by
  unfold natChars
  split
  · intro c hc
    have : c = '0' := by simpa using hc
    rw [this]
    decide
  · exact natCharsAux_no_colon n n

theorem natChars_all_digit (n : ℕ) : ∀ c ∈ natChars n, c.isDigit = true := by
  unfold natChars
  split
  · intro c hc
    have : c = '0' := by simpa using hc
    rw [this]
    decide
  · exact natCharsAux_all_digit n n

theorem natCharsAux_ne_nil (fuel n : ℕ) (hn : ¬ n = 0) :
    natCharsAux (fuel + 1) n ≠ [] := by
  rw [natCharsAux, if_neg hn]
  simp

theorem natChars_ne_nil (n : ℕ) : natChars n ≠ [] := by
  unfold natChars
  split
  · simp
  · match n, ‹¬ n = 0› with
    | m + 1, h => exact natCharsAux_ne_nil m (m + 1) h

theorem natCharsAux_foldl :
    ∀ fuel n : ℕ, n ≤ fuel → ∀ acc : ℕ,
      (natCharsAux fuel n).foldl (fun a c => 10 * a + digitVal c) acc =
        acc * 10 ^ (natCharsAux fuel n).length + n
  | 0, n, hn => by
    intro acc
    have : n = 0 := Nat.le_zero.mp hn
    simp [natCharsAux, this]
  | fuel + 1, n, hn => by
    intro acc
    by_cases h0 : n = 0
    · simp [natCharsAux, h0]
    · rw [natCharsAux, if_neg h0]
      have hfuel : n / 10 ≤ fuel := by omega
      have ih := natCharsAux_foldl fuel (n / 10) hfuel acc
      rw [List.foldl_append, ih]
      simp only [List.foldl_cons, List.foldl_nil, List.length_append,
        List.length_cons, List.length_nil]
      rw [digitVal_digitChar (n % 10) (Nat.mod_lt n (by omega))]
      have : acc * 10 ^ ((natCharsAux fuel (n / 10)).length + (0 + 1)) =
          (acc * 10 ^ (natCharsAux fuel (n / 10)).length) * 10 := by
        ring
      rw [this]
      omega

theorem parseNatDigits_natChars (n : ℕ) : parseNatDigits (natChars n) = some n := by
  unfold parseNatDigits
  rw [if_neg (natChars_ne_nil n)]
  rw [if_pos (List.all_eq_true.mpr (fun c hc => natChars_all_digit n c hc))]
  congr 1
  unfold natChars
  split
  · simpa [digitVal] using ‹n = 0›.symm
  · simpa using natCharsAux_foldl n n le_rfl 0

theorem parseInt_intChars (z : ℤ) : parseInt (intChars z) = some z := by
  unfold intChars
  split
  · rw [show ('-' :: natChars z.natAbs : List Char) =
      '-' :: natChars z.natAbs from rfl]
    rw [parseInt]
    rw [if_pos rfl, parseNatDigits_natChars]
    have hz : -(z.natAbs : ℤ) = z := by omega
    show some (-(z.natAbs : ℤ)) = some z
    rw [hz]
  · obtain ⟨c, rest, hcr⟩ := List.exists_cons_of_ne_nil (natChars_ne_nil z.natAbs)
    have hdig : c.isDigit = true := by
      apply natChars_all_digit z.natAbs
      rw [hcr]
      simp
    have hminus : ¬ c = '-' := by
      intro h
      rw [h] at hdig
      simp [Char.isDigit] at hdig
    have hplus : ¬ c = '+' := by
      intro h
      rw [h] at hdig
      simp [Char.isDigit] at hdig
    rw [hcr, parseInt, if_neg hminus, if_neg hplus, ← hcr, parseNatDigits_natChars]
    have hz : (z.natAbs : ℤ) = z := by omega
    show some ((z.natAbs : ℤ)) = some z
    rw [hz]

theorem token_decomp (now : ℤ) (email : List Char) :
    create_fake_token now email =
      "token".toList ++ ':' :: ':' ::
        (email ++ ':' :: ':' ::
          (intChars (now + 3600) ++ ':' :: ':' :: FAKE_SECRET)) := by
  show ("token::".toList ++ email ++ "::".toList ++ intChars (now + 3600) ++
      "::".toList ++ FAKE_SECRET) = _
  simp [List.append_assoc]

theorem split2_secret : split2 FAKE_SECRET = [FAKE_SECRET] := by decide

theorem intChars_no_colon (z : ℤ) : ∀ c ∈ intChars z, ¬ c = ':' := by
  unfold intChars
  split
  · intro c hc
    rcases List.mem_cons.mp hc with h | h
    · rw [h]; decide
    · exact natChars_no_colon _ c h
  · exact natChars_no_colon _

theorem okField_intChars (z : ℤ) : okField (intChars z) = true :=
  okField_of_no_colon _ (intChars_no_colon z)

theorem intChars_ne_nil (z : ℤ) : intChars z ≠ [] := by
  unfold intChars
  split
  · simp
  · exact natChars_ne_nil _

theorem split_token_ok (now : ℤ) (email : List Char) (h : okField email = true) :
    split2 (create_fake_token now email) =
      ["token".toList, email, intChars (now + 3600), FAKE_SECRET] := by
  rw [token_decomp]
  rw [split2_append_sep ("token".toList) _ (by decide)]
  rw [split2_append_sep email _ h]
  rw [split2_append_sep (intChars (now + 3600)) _ (okField_intChars _)]
  rw [split2_secret]

theorem split_token_trailing (now : ℤ) (front : List Char)
    (hf : okField front = true) :
    split2 (create_fake_token now (front ++ [':'])) =
      ["token".toList, front, ':' :: intChars (now + 3600), FAKE_SECRET] := by
  rw [token_decomp]
  rw [split2_append_sep ("token".toList) _ (by decide)]
  have hshift :
      (front ++ [':']) ++ ':' :: ':' ::
          (intChars (now + 3600) ++ ':' :: ':' :: FAKE_SECRET) =
        front ++ ':' :: ':' ::
          ((':' :: intChars (now + 3600)) ++ ':' :: ':' :: FAKE_SECRET) := by
    simp
  rw [hshift]
  rw [split2_append_sep front _ hf]
  have hexp : okField (':' :: intChars (now + 3600)) = true :=
    okField_cons_colon _ (intChars_ne_nil _) (intChars_no_colon _)
  rw [split2_append_sep (':' :: intChars (now + 3600)) _ hexp]
  rw [split2_secret]

/-- C4, counterexample: with the non-empty email `"a::b"` and non-empty
password `"x"`, login succeeds but the issued token splits into 5
colon-delimited fields, not 4, refuting the claim as stated. -/
theorem login_token_four_fields_cex :
    (['a', ':', ':', 'b'] : List Char) ≠ [] ∧ (['x'] : List Char) ≠ [] ∧
    login 0 ['a', ':', ':', 'b'] ['x'] =
      Except.ok { access_token := create_fake_token 0 ['a', ':', ':', 'b'] } ∧
    (split2 (create_fake_token 0 ['a', ':', ':', 'b'])).length = 5 := by
  refine ⟨by decide, by decide, rfl, by decide⟩

/-- C4 (amended): `POST /auth/login` fails with a 400-class error exactly
when the email or the password is empty; for every non-empty pair whose
email does not contain the substring `"::"`, it succeeds and the returned
token splits into exactly 4 colon-delimited fields. -/
theorem login_error_iff_and_token_fields :
    (∀ now : ℤ, ∀ email pw : List Char,
      login now email pw = Except.error 400 ↔ (email = [] ∨ pw = [])) ∧
    (∀ now : ℤ, ∀ email pw : List Char,
      email ≠ [] → pw ≠ [] → noSep email = true →
        login now email pw =
          Except.ok { access_token := create_fake_token now email } ∧
        (split2 (create_fake_token now email)).length = 4) := by
  constructor
  · intro now email pw
    unfold login
    split
    · simp [*]
    · simp [*]
  · intro now email pw he hp hns
    constructor
    · unfold login
      rw [if_neg (by simp [he, hp])]
    · by_cases hok : okField email = true
      · rw [split_token_ok now email hok]
        rfl
      · have hok' : okField email = false := by
          cases h : okField email
          · rfl
          · exact absurd h hok
        obtain ⟨front, hfr, hfok⟩ := noSep_decomp email hns hok'
        rw [hfr, split_token_trailing now front hfok]
        rfl

/-- Witness for the amended C4 at a concrete non-empty pair. -/
theorem login_error_iff_and_token_fields_witness :
    (['a'] : List Char) ≠ [] ∧ (['b'] : List Char) ≠ [] ∧
    noSep (['a'] : List Char) = true ∧
    (split2 (create_fake_token 0 ['a'])).length = 4 :=
  ⟨by decide, by decide, by decide,
   (login_error_iff_and_token_fields.2 0 ['a'] ['b'] (by decide) (by decide)
     (by decide)).2⟩

/-- C9, counterexample: the email `"a:"` contains no `"::"` substring, yet
validating its fresh token yields `none` rather than the email — the
trailing `':'` merges with the separator, so the expiry field becomes
`":3600"` and `int(...)` raises. -/
theorem token_roundtrip_cex :
    noSep (['a', ':'] : List Char) = true ∧ (0 : ℤ) ≤ 0 + 3600 ∧
    get_current_user 0 (some (create_fake_token 0 ['a', ':'])) = none := by
  refine ⟨by decide, by decide, by decide⟩

/-- C9 (amended): for every email that contains no `"::"` substring and does
not end with `':'`, validating a token issued by `create_fake_token`, at any
time no later than the embedded one-hour expiry, yields exactly that email.
(The two conditions together are `okField email`.) -/
theorem get_current_user_some (now : ℤ) (t : List Char) :
    get_current_user now (some t) =
      match split2 t with
      | [_, email, exp, secret] =>
        if secret ≠ FAKE_SECRET then none
        else
          match parseInt exp with
          | none => none
          | some e => if e < now then none else some email
      | _ => none := rfl

theorem token_roundtrip (now0 now1 : ℤ) (email : List Char)
    (hok : okField email = true) (hexp : now1 ≤ now0 + 3600) :
    get_current_user now1 (some (create_fake_token now0 email)) = some email := by
  rw [get_current_user_some]
  rw [split_token_ok now0 email hok]
  show (if FAKE_SECRET ≠ FAKE_SECRET then none
    else
      match parseInt (intChars (now0 + 3600)) with
      | none => none
      | some e => if e < now1 then none else some email) = some email
  rw [if_neg (by simp), parseInt_intChars]
  show (if now0 + 3600 < now1 then none else some email) = some email
  rw [if_neg (by omega)]

/-- Witness for the amended C9 at a concrete email and time. -/
theorem token_roundtrip_witness :
    okField (['a', 'l', 'i', 'c', 'e'] : List Char) = true ∧ (5 : ℤ) ≤ 5 + 3600 ∧
    get_current_user 5 (some (create_fake_token 5 ['a', 'l', 'i', 'c', 'e'])) =
      some ['a', 'l', 'i', 'c', 'e'] :=
  ⟨by decide, by decide, token_roundtrip 5 5 _ (by decide) (by decide)⟩

/-- C5: any token whose embedded expiry field parses to an integer earlier
than the current time is rejected by `get_current_user`, whatever the
embedded secret is. -/
theorem expired_token_rejected (now : ℤ) (t a b exp s : List Char) (e : ℤ)
    (hsplit : split2 t = [a, b, exp, s]) (hparse : parseInt exp = some e)
    (hlt : e < now) : get_current_user now (some t) = none := by
  rw [get_current_user_some, hsplit]
  show (if s ≠ FAKE_SECRET then none
    else
      match parseInt exp with
      | none => none
      | some e0 => if e0 < now then none else some b) = none
  by_cases hs : s = FAKE_SECRET
  · rw [if_neg (by simp [hs]), hparse]
    show (if e < now then none else some b) = none
    rw [if_pos hlt]
  · rw [if_pos hs]

/-- Witness for C5 at a concrete expired token carrying the right secret. -/
theorem expired_token_rejected_witness :
    split2 ("token::u::5::creator-insight-demo-secret".toList) =
      ["token".toList, "u".toList, "5".toList, FAKE_SECRET] ∧
    parseInt ("5".toList) = some 5 ∧ (5 : ℤ) < 9 ∧
    get_current_user 9 (some ("token::u::5::creator-insight-demo-secret".toList)) =
      none :=
  ⟨by decide, by decide, by decide,
   expired_token_rejected 9 ("token::u::5::creator-insight-demo-secret".toList)
     ("token".toList) ("u".toList) ("5".toList) FAKE_SECRET 5
     (by decide) (by decide) (by decide)⟩

/-- C10: the current-user check is total and never surfaces an error — for
every input it returns an email or `none`; in particular missing
credentials, a wrong field count, a wrong secret, and a non-integer expiry
all yield `none`, and a summary endpoint taking the optional bearer token
returns the same response whatever the credentials were. -/
theorem current_user_never_errors :
    (∀ now : ℤ, ∀ creds : Option (List Char),
      get_current_user now creds = none ∨
        ∃ email, get_current_user now creds = some email) ∧
    (∀ now : ℤ, get_current_user now none = none) ∧
    (∀ now : ℤ, ∀ t : List Char, (split2 t).length ≠ 4 →
      get_current_user now (some t) = none) ∧
    (∀ now : ℤ, ∀ t a b x s : List Char, split2 t = [a, b, x, s] →
      s ≠ FAKE_SECRET → get_current_user now (some t) = none) ∧
    (∀ now : ℤ, ∀ t a b x s : List Char, split2 t = [a, b, x, s] →
      parseInt x = none → get_current_user now (some t) = none) ∧
    (∀ now : ℤ, ∀ creds : Option (List Char), ∀ oc oe : DbOutcome ℕ,
      dashboard_summary (get_current_user now creds) oc oe =
        dashboard_summary none oc oe) := by
  refine ⟨?_, ?_, ?_, ?_, ?_, ?_⟩
  · intro now creds
    cases h : get_current_user now creds with
    | none => exact Or.inl rfl
    | some e => exact Or.inr ⟨e, rfl⟩
  · intro now
    rfl
  · intro now t hlen
    rw [get_current_user_some]
    rcases hsp : split2 t with _ | ⟨a, _ | ⟨b, _ | ⟨x, _ | ⟨s, _ | ⟨u, tl⟩⟩⟩⟩⟩ <;>
      first
        | rfl
        | (exfalso; rw [hsp] at hlen; simp at hlen)
  · intro now t a b x s hsp hs
    rw [get_current_user_some, hsp]
    show (if s ≠ FAKE_SECRET then none
      else
        match parseInt x with
        | none => none
        | some e0 => if e0 < now then none else some b) = none
    rw [if_pos hs]
  · intro now t a b x s hsp hx
    rw [get_current_user_some, hsp]
    show (if s ≠ FAKE_SECRET then none
      else
        match parseInt x with
        | none => none
        | some e0 => if e0 < now then none else some b) = none
    by_cases hs : s = FAKE_SECRET
    · rw [if_neg (by simp [hs]), hx]
    · rw [if_pos hs]
  · intro now creds oc oe
    rfl

/-- Witness for C10 at a concrete malformed one-field token. -/
theorem current_user_never_errors_witness :
    (split2 ['x']).length ≠ 4 ∧ get_current_user 0 (some ['x']) = none :=
  ⟨by decide, current_user_never_errors.2.2.1 0 ['x'] (by decide)⟩

theorem rhe_intCast (z : ℤ) : rhe ((z : ℤ) : ℚ) = z := by
  unfold rhe
  simp [Int.floor_intCast]

/-- C1: the sequential-threshold level computation agrees with the spec's
"highest threshold at most p" reading for every non-negative point total,
and takes the stated values at 1860, 2000, 10000; the endpoint (hard-coded
1860 points) answers Bronze. -/
theorem level_matches_spec :
    (∀ p : ℤ, 0 ≤ p → specLevel p = some (levelFor p)) ∧
    levelFor 1860 = "Bronze" ∧ levelFor 2000 = "Silver" ∧
    levelFor 10000 = "Platinum" ∧ get_creator_level = "Bronze" := by
  refine ⟨?_, by decide, by decide, by decide, by decide⟩
  intro p hp
  have d0 : decide ((0 : ℤ) ≤ p) = true := decide_eq_true hp
  rcases lt_or_le p 2000 with h1 | h1
  · have d2 : decide ((2000 : ℤ) ≤ p) = false := decide_eq_false (by omega)
    have d5 : decide ((5000 : ℤ) ≤ p) = false := decide_eq_false (by omega)
    have d10 : decide ((10000 : ℤ) ≤ p) = false := decide_eq_false (by omega)
    simp only [specLevel, achievementThresholds, levelFor, List.filter, d0, d2, d5,
      d10, ge_iff_le, List.getLast?_singleton, Option.map_some']
    split_ifs <;> first | rfl | omega
  · have d2 : decide ((2000 : ℤ) ≤ p) = true := decide_eq_true h1
    rcases lt_or_le p 5000 with h2 | h2
    · have d5 : decide ((5000 : ℤ) ≤ p) = false := decide_eq_false (by omega)
      have d10 : decide ((10000 : ℤ) ≤ p) = false := decide_eq_false (by omega)
      simp only [specLevel, achievementThresholds, levelFor, List.filter, d0, d2,
        d5, d10, ge_iff_le, List.getLast?_cons_cons, List.getLast?_singleton,
        Option.map_some']
      split_ifs <;> first | rfl | omega
    · have d5 : decide ((5000 : ℤ) ≤ p) = true := decide_eq_true h2
      rcases lt_or_le p 10000 with h3 | h3
      · have d10 : decide ((10000 : ℤ) ≤ p) = false := decide_eq_false (by omega)
        simp only [specLevel, achievementThresholds, levelFor, List.filter, d0, d2,
          d5, d10, ge_iff_le, List.getLast?_cons_cons, List.getLast?_singleton,
          Option.map_some']
        split_ifs <;> first | rfl | omega
      · have d10 : decide ((10000 : ℤ) ≤ p) = true := decide_eq_true h3
        simp only [specLevel, achievementThresholds, levelFor, List.filter, d0, d2,
          d5, d10, ge_iff_le, List.getLast?_cons_cons, List.getLast?_singleton,
          Option.map_some']
        split_ifs <;> first | rfl | omega

/-- Witness for C1 at the hard-coded point total. -/
theorem level_matches_spec_witness :
    (0 : ℤ) ≤ 1860 ∧ specLevel 1860 = some (levelFor 1860) :=
  ⟨by decide, level_matches_spec.1 1860 (by decide)⟩

/-- C2: for every non-negative point total the handler's progress percent
agrees with the spec's reading (100 when no threshold exceeds p, otherwise
`min(100, round(p / nextThreshold * 100, 2))` at the first threshold
strictly above p); the endpoint (hard-coded 1860 points) reports next level
Silver with 93.0 percent. -/
theorem progress_matches_spec :
    (∀ p : ℤ, 0 ≤ p → (progressResp p).progressPercent = specProgress p) ∧
    get_progress_to_next_level = ⟨1860, "Silver", 93⟩ := by
  constructor
  · intro p hp
    have d0 : decide (p < (0 : ℤ)) = false := decide_eq_false (by omega)
    rcases lt_or_le p 2000 with h1 | h1
    · have d2 : decide (p < (2000 : ℤ)) = true := decide_eq_true h1
      simp [progressResp, specProgress, specNextThreshold, achievementThresholds,
        List.find?, d0, d2]
    · have d2 : decide (p < (2000 : ℤ)) = false := decide_eq_false (by omega)
      rcases lt_or_le p 5000 with h2 | h2
      · have d5 : decide (p < (5000 : ℤ)) = true := decide_eq_true h2
        simp [progressResp, specProgress, specNextThreshold, achievementThresholds,
          List.find?, d0, d2, d5]
      · have d5 : decide (p < (5000 : ℤ)) = false := decide_eq_false (by omega)
        rcases lt_or_le p 10000 with h3 | h3
        · have d10 : decide (p < (10000 : ℤ)) = true := decide_eq_true h3
          simp [progressResp, specProgress, specNextThreshold,
            achievementThresholds, List.find?, d0, d2, d5, d10]
        · have d10 : decide (p < (10000 : ℤ)) = false := decide_eq_false (by omega)
          simp only [progressResp, specProgress, specNextThreshold,
            achievementThresholds, List.find?, d0, d2, d5, d10, Option.getD_none]
          have h5 : (p : ℚ) / ((2000 : ℤ) : ℚ) * 100 * 100 = ((5 * p : ℤ) : ℚ) := by
            push_cast
            ring
          rw [if_pos (by norm_num), round2, h5, rhe_intCast]
          rw [min_eq_left]
          rw [le_div_iff₀ (by norm_num)]
          have hq : (10000 : ℚ) ≤ (p : ℚ) := by exact_mod_cast h3
          push_cast
          linarith
  · show progressResp 1860 = _
    have hr : round2 ((1860 : ℚ) / (2000 : ℚ) * 100) = 93 := by
      have h5 : (1860 : ℚ) / (2000 : ℚ) * 100 * 100 = ((9300 : ℤ) : ℚ) := by
        push_cast
        norm_num
      rw [round2, h5, rhe_intCast]
      norm_num
    have hfind : achievementThresholds.find? (fun t => decide ((1860 : ℤ) < t.2)) =
        some ("Silver", 2000) := by decide
    simp [progressResp, hfind, hr]
    norm_num

/-- Witness for C2 at the hard-coded point total. -/
theorem progress_matches_spec_witness :
    (0 : ℤ) ≤ 1860 ∧ (progressResp 1860).progressPercent = specProgress 1860 :=
  ⟨by decide, progress_matches_spec.1 1860 (by decide)⟩

/-- C3: the store-touching read handlers swallow every data-access fault:
for an absent handle, a raising query, or an empty result, `GET /courses`,
`GET /courses/{id}`, `_safe_count`, and `GET /dashboard/summary` all answer
successfully with their fixed placeholder payloads instead of an error. -/
theorem read_endpoints_fallback :
    (∀ o : DbOutcome (List CourseDoc), storeFault o ∨ o = DbOutcome.ok [] →
      get_courses o = demoCourses) ∧
    (∀ cid : String, ∀ o : DbOutcome (Option CourseDoc),
      storeFault o ∨ o = DbOutcome.ok none →
        get_course cid o = CourseDetail.demo (fallbackCourse cid)) ∧
    (∀ o : DbOutcome ℕ, storeFault o → safe_count o = 0) ∧
    (∀ u : Option (List Char), ∀ oc oe : DbOutcome ℕ,
      storeFault oc ∨ oc = DbOutcome.ok 0 → storeFault oe ∨ oe = DbOutcome.ok 0 →
        dashboard_summary u oc oe = ⟨8, 1240, 744⟩) := by
  have hcount : ∀ o : DbOutcome ℕ, storeFault o ∨ o = DbOutcome.ok 0 →
      safe_count o = 0 := by
    intro o h
    rcases h with (h | h) | h <;> rw [h] <;> rfl
  refine ⟨?_, ?_, ?_, ?_⟩
  · intro o h
    rcases h with (h | h) | h <;> rw [h] <;> rfl
  · intro cid o h
    rcases h with (h | h) | h <;> rw [h] <;> rfl
  · intro o h
    rcases h with h | h <;> rw [h] <;> rfl
  · intro u oc oe hoc hoe
    have hfl : ⌊(1240 : ℚ) * (3 / 5)⌋ = (744 : ℤ) := by
      rw [show (1240 : ℚ) * (3 / 5) = ((744 : ℤ) : ℚ) by norm_num, Int.floor_intCast]
    simp [dashboard_summary, hcount oc hoc, hcount oe hoe, hfl]

/-- Witness for C3 at the unavailable-store outcome. -/
theorem read_endpoints_fallback_witness :
    (storeFault (DbOutcome.unavailable : DbOutcome (List CourseDoc)) ∨
      (DbOutcome.unavailable : DbOutcome (List CourseDoc)) = DbOutcome.ok []) ∧
    get_courses DbOutcome.unavailable = demoCourses :=
  ⟨Or.inl (Or.inl rfl), read_endpoints_fallback.1 DbOutcome.unavailable
    (Or.inl (Or.inl rfl))⟩

/-- C6: with an unreachable store (absent handle or raising query),
`GET /courses` returns exactly the three demo courses `c1`, `c2`, `c3` in
that order. -/
theorem courses_demo_on_fault :
    get_courses DbOutcome.unavailable = demoCourses ∧
    get_courses DbOutcome.raised = demoCourses ∧
    demoCourses = [⟨"c1", "Mastering Python", "Programming"⟩,
      ⟨"c2", "Data Visualization", "Analytics"⟩,
      ⟨"c3", "Teaching with AI", "Education"⟩] :=
  ⟨rfl, rfl, rfl⟩

/-- C7: for every course id (and date stamp) the reviews endpoint reports
the average `round(mean([4.5, 4.8, 4.2]), 2) = 4.5` and a count of 3. -/
theorem reviews_avg_and_count (course_id today : String) :
    (get_reviews course_id today).rating = round2 (((4.5 : ℚ) + 4.8 + 4.2) / 3) ∧
    (get_reviews course_id today).rating = 4.5 ∧
    (get_reviews course_id today).count = 3 := by
  refine ⟨?_, ?_, rfl⟩
  · show round2 (((4.5 : ℚ) + (4.8 + (4.2 + 0))) / ((3 : ℕ) : ℚ)) =
      round2 (((4.5 : ℚ) + 4.8 + 4.2) / 3)
    have harg : (((4.5 : ℚ) + (4.8 + (4.2 + 0))) / ((3 : ℕ) : ℚ)) =
        (((4.5 : ℚ) + 4.8 + 4.2) / 3) := by
      norm_num
    rw [harg]
  · show round2 (((4.5 : ℚ) + (4.8 + (4.2 + 0))) / ((3 : ℕ) : ℚ)) = 4.5
    rw [round2, show (((4.5 : ℚ) + (4.8 + (4.2 + 0))) / ((3 : ℕ) : ℚ)) * 100 =
      ((450 : ℤ) : ℚ) by norm_num, rhe_intCast]
    norm_num

/-- C8: `POST /achievements/update` mutates nothing — whatever state the
application threads through is returned unchanged — and the response merely
echoes the supplied creator id and points delta. -/
theorem update_achievements_pure (σ : Type) (st : σ)
    (body : UpdateAchievementRequest) :
    update_achievements st body = (st, ⟨"ok", body.creatorId, body.pointsDelta⟩) :=
  rfl
